import Mathlib

/-
Verification of the summit Apex/Apple II disk image tool.
Shallow embedding of the C++ sources:
  - apple_ii_disk_image.cc / .hh : sector interleave tables
  - apple_ii_disk.cc / .hh       : per-format geometry, disk image read/write
  - apex_disk.cc / apex_disk.hh  : Apex filesystem layer (filenames, dates,
                                   directory, free-block bitmap, allocation)
Machine integers are modelled as Nat with explicit `% 2^w` where the width
matters; byte buffers are modelled as functions `Nat → Nat` or `List Nat`;
C++ exceptions become `Option`/flag results (a throw happens before any
mutation in the functions modelled here, so a failure leaves state unchanged).
-/

namespace Summit

/-! ### Sector interleave tables (apple_ii_disk_image.hh) -/

namespace AppleIIDiskImage

inductive ImageFormat where
  | RAW_ORDER
  | DOS_ORDER
  | PRODOS_ORDER
  | CPM_ORDER
deriving DecidableEq, Fintype

def SECTORS_PER_TRACK : Nat := 16

def logical_to_physical_sector_map : ImageFormat → List Nat
  | .RAW_ORDER    => [0x0, 0x1, 0x2, 0x3, 0x4, 0x5, 0x6, 0x7,
                      0x8, 0x9, 0xa, 0xb, 0xc, 0xd, 0xe, 0xf]
  | .DOS_ORDER    => [0x0, 0xd, 0xb, 0x9, 0x7, 0x5, 0x3, 0x1,
                      0xe, 0xc, 0xa, 0x8, 0x6, 0x4, 0x2, 0xf]
  | .PRODOS_ORDER => [0x0, 0x2, 0x4, 0x6, 0x8, 0xa, 0xc, 0xe,
                      0x1, 0x3, 0x5, 0x7, 0x9, 0xb, 0xd, 0xf]
  | .CPM_ORDER    => [0x0, 0x3, 0x6, 0x9, 0xc, 0xf, 0x2, 0x5,
                      0x8, 0xb, 0xe, 0x1, 0x4, 0x7, 0xa, 0xd]

def physical_to_logical_sector_map : ImageFormat → List Nat
  | .RAW_ORDER    => [0x0, 0x1, 0x2, 0x3, 0x4, 0x5, 0x6, 0x7,
                      0x8, 0x9, 0xa, 0xb, 0xc, 0xd, 0xe, 0xf]
  | .DOS_ORDER    => [0x0, 0x7, 0xe, 0x6, 0xd, 0x5, 0xc, 0x4,
                      0xb, 0x3, 0xa, 0x2, 0x9, 0x1, 0x8, 0xf]
  | .PRODOS_ORDER => [0x0, 0x8, 0x1, 0x9, 0x2, 0xa, 0x3, 0xb,
                      0x4, 0xc, 0x5, 0xd, 0x6, 0xe, 0x7, 0xf]
  | .CPM_ORDER    => [0x0, 0xb, 0x6, 0x1, 0xc, 0x7, 0x2, 0xd,
                      0x8, 0x3, 0xe, 0x9, 0x4, 0xf, 0xa, 0x5]

end AppleIIDiskImage

/-! ### Geometry and disk image (apple_ii_disk.cc / .hh) -/

namespace AppleII

inductive ImageFormat where
  | RAW
  | THIRTEEN_SECTOR
  | DOS_ORDER
  | PRODOS_ORDER
  | CPM_ORDER
  | APEX_ORDER
deriving DecidableEq, Fintype

structure DiskGeometry where
  bytes_per_sector : Nat
  sectors : Nat
  heads : Nat
  cylinders : Nat
  deinterleave_table : Option (List Nat)

def dos_order_phys_to_log_table : List Nat :=
  [0x0, 0x7, 0xe, 0x6, 0xd, 0x5, 0xc, 0x4, 0xb, 0x3, 0xa, 0x2, 0x9, 0x1, 0x8, 0xf]

def prodos_order_phys_to_log_table : List Nat :=
  [0x0, 0x8, 0x1, 0x9, 0x2, 0xa, 0x3, 0xb, 0x4, 0xc, 0x5, 0xd, 0x6, 0xe, 0x7, 0xf]

def cpm_order_phys_to_log_table : List Nat :=
  [0x0, 0xb, 0x6, 0x1, 0xc, 0x7, 0x2, 0xd, 0x8, 0x3, 0xe, 0x9, 0x4, 0xf, 0xa, 0x5]

def apex_order_phys_to_log_table : List Nat :=
  [0x0, 0xe, 0xd, 0xc, 0xb, 0xa, 0x9, 0x8, 0x7, 0x6, 0x5, 0x4, 0x3, 0x2, 0x1, 0xf]

/-- The `geometry` table from apple_ii_disk.cc (note: the PRODOS_ORDER entry
really does read 265 bytes per sector in the source). -/
def geometry : ImageFormat → DiskGeometry
  | .RAW             => ⟨256,  0, 1,  0, none⟩
  | .THIRTEEN_SECTOR => ⟨256, 13, 1, 35, none⟩
  | .DOS_ORDER       => ⟨256, 16, 1, 35, some dos_order_phys_to_log_table⟩
  | .PRODOS_ORDER    => ⟨265, 16, 1, 35, some prodos_order_phys_to_log_table⟩
  | .CPM_ORDER       => ⟨256, 16, 1, 35, some cpm_order_phys_to_log_table⟩
  | .APEX_ORDER      => ⟨256, 16, 1, 35, some apex_order_phys_to_log_table⟩

def get_bytes_per_disk (format : ImageFormat) : Nat :=
  (geometry format).bytes_per_sector * (geometry format).sectors *
    (geometry format).heads * (geometry format).cylinders

/-- DiskImage: the in-memory byte buffer, modelled as a size plus a byte
function (the constructor allocates `get_bytes_per_disk format` zero bytes). -/
structure DiskImage where
  m_format : ImageFormat
  m_size : Nat
  m_data : Nat → Nat

def DiskImage.byte_offset (img : DiskImage) (track head sector : Nat) : Nat :=
  ((track * (geometry img.m_format).heads + head) * (geometry img.m_format).sectors + sector) *
    (geometry img.m_format).bytes_per_sector

/-- DiskImage::read — returns `none` exactly when the source would throw
"read beyond end of disk image"; otherwise the copied bytes. -/
def DiskImage.read (img : DiskImage) (track head sector sector_count : Nat) :
    Option (List Nat) :=
  let byte_offset := img.byte_offset track head sector
  let byte_count := sector_count * (geometry img.m_format).bytes_per_sector
  if byte_offset + byte_count ≥ img.m_size then none
  else some ((List.range byte_count).map (fun k => img.m_data (byte_offset + k)))

/-- DiskImage::write — `none` exactly when the source would throw; otherwise
the image with the byte range replaced by the supplied data. -/
def DiskImage.write (img : DiskImage) (track head sector sector_count : Nat)
    (data : Nat → Nat) : Option DiskImage :=
  let byte_offset := img.byte_offset track head sector
  let byte_count := sector_count * (geometry img.m_format).bytes_per_sector
  if byte_offset + byte_count ≥ img.m_size then none
  else some { img with
    m_data := fun a =>
      if byte_offset ≤ a ∧ a < byte_offset + byte_count then data (a - byte_offset)
      else img.m_data a }

end AppleII

/-! ### Date codec (apex_disk.cc) -/

namespace Apex

def EPOCH_YEAR : Nat := 1976

/-- Date::Date(year, month, day): returns the packed raw value, or `none`
when the source constructor throws a DateError. -/
def Date.ofComponents (year month day : Nat) : Option Nat :=
  if year < EPOCH_YEAR ∨ EPOCH_YEAR + 127 < year then none
  else if month < 1 ∨ 12 < month then none
  else if day < 1 ∨ 31 < day then none
  else some ((year - EPOCH_YEAR) * 512 + month * 32 + day)

def Date.get_year (raw : Nat) : Nat := raw / 512 + EPOCH_YEAR

def Date.get_month (raw : Nat) : Nat := raw / 32 % 16

def Date.get_day (raw : Nat) : Nat := raw % 32

end Apex

/-! ### Concrete instances used by the claim theorems -/

/-- An Apex-order disk image of the exact size allocated by the DiskImage
constructor (35 tracks × 16 sectors × 256 bytes), holding all zero bytes. -/
def apex_full_image : AppleII.DiskImage :=
  ⟨AppleII.ImageFormat.APEX_ORDER, AppleII.get_bytes_per_disk AppleII.ImageFormat.APEX_ORDER,
   fun _ => 0⟩

/-- The 1024 bytes that reading blocks 9..12 of the zeroed Apex image
returns (the primary directory area). -/
def c7_read_result : List Nat :=
  (List.range 1024).map (fun k => apex_full_image.m_data (2304 + k))

/-! ### Filename codec (utility.cc, apex_disk.cc) -/

namespace Apex

/-- utility::upcase_character — the explicit a→A … z→Z switch. -/
def upcase_character (c : Char) : Char :=
  match c with
  | 'a' => 'A'
  | 'b' => 'B'
  | 'c' => 'C'
  | 'd' => 'D'
  | 'e' => 'E'
  | 'f' => 'F'
  | 'g' => 'G'
  | 'h' => 'H'
  | 'i' => 'I'
  | 'j' => 'J'
  | 'k' => 'K'
  | 'l' => 'L'
  | 'm' => 'M'
  | 'n' => 'N'
  | 'o' => 'O'
  | 'p' => 'P'
  | 'q' => 'Q'
  | 'r' => 'R'
  | 's' => 'S'
  | 't' => 'T'
  | 'u' => 'U'
  | 'v' => 'V'
  | 'w' => 'W'
  | 'x' => 'X'
  | 'y' => 'Y'
  | 'z' => 'Z'
  | c => c

def FILENAME_CHARS : Nat := 8

def EXTENSION_CHARS : Nat := 3

structure Filename where
  name : List Char
  ext : List Char
  m_has_wildcard : Bool
deriving DecidableEq

/-- Parser state of the Filename(pattern) constructor loop: the two parts,
whether we are in the extension, the write index, and the star flag. -/
structure FilenamePatternState where
  name : List Char
  ext : List Char
  in_ext : Bool
  index : Nat
  have_star : Bool
  has_wildcard : Bool
deriving DecidableEq

/-- One iteration of the Filename(pattern) constructor loop over one pattern
character; `none` models a thrown FilenameError. -/
def filename_pattern_step (st : FilenamePatternState) (c : Char) :
    Option FilenamePatternState :=
  if (('A' ≤ c ∧ c ≤ 'Z') ∨ ('a' ≤ c ∧ c ≤ 'z') ∨
      (('0' ≤ c ∧ c ≤ '9') ∧ st.index ≠ 0) ∨ c = '?' ∨ c = '*') then
    if st.index ≥ (if st.in_ext then st.ext else st.name).length then none
    else if st.have_star then none
    else some { st with
      name := if st.in_ext then st.name else st.name.set st.index c
      ext := if st.in_ext then st.ext.set st.index c else st.ext
      index := st.index + 1
      have_star := c = '*'
      has_wildcard := st.has_wildcard || c = '?' || c = '*' }
  else if c = '.' then
    if st.in_ext then none
    else some { st with in_ext := true, index := 0, have_star := false }
  else none

/-- Filename::Filename(pattern): starts from 8 + 3 space-filled components
and folds the constructor loop over the pattern; `none` models a thrown
FilenameError. -/
def Filename.ofPattern (pattern : List Char) : Option Filename :=
  (pattern.foldlM filename_pattern_step
      ⟨List.replicate FILENAME_CHARS ' ', List.replicate EXTENSION_CHARS ' ',
       false, 0, false, false⟩).map
    fun st => ⟨st.name, st.ext, st.has_wildcard⟩

/-- The part_match loop of apex_disk.cc: the loop walks index i over the
pattern while reading fn at the same index, so with the two equal-length
components it is simultaneous structural recursion on both lists. `'*'`
succeeds on the whole remainder, `'?'` skips one position, a pattern space
requires (and short-circuits on) a target space, anything else compares
case-insensitively. -/
def part_match : List Char → List Char → Bool
  | [], _ => true
  | p :: ps, fn =>
    if p = '*' then true
    else if p = '?' then part_match ps fn.tail
    else if p = ' ' then fn.headD ' ' = ' '
    else if upcase_character p = upcase_character (fn.headD ' ') then part_match ps fn.tail
    else false

/-- Filename::match — `this` is the pattern side. -/
def Filename.matches (pat other : Filename) : Bool :=
  part_match pat.name other.name && part_match pat.ext other.ext

/-- Filename::upcase — upcases all characters of both components. -/
def Filename.upcase (f : Filename) : Filename :=
  ⟨f.name.map upcase_character, f.ext.map upcase_character, false⟩

/-- Parse a pattern and a target filename and run Filename::match;
`none` when either construction throws. -/
def pattern_matches (pat target : String) : Option Bool := do
  let p ← Filename.ofPattern pat.toList
  let t ← Filename.ofPattern target.toList
  pure (p.matches t)

end Apex

/-! ### Apex directory layer (apex_disk.cc / apex_disk.hh)

The 1024-byte directory buffer `m_directory_data` is modelled as a byte
function `Nat → Nat`; the underlying disk image bytes likewise.  The free
bitmap is derived state: the source recomputes it from the buffer at
construction and after every entry mutation, so it is modelled as the pure
function `update_free_bitmap` of the buffer. -/

namespace Apex

def BYTES_PER_BLOCK : Nat := 256

def BLOCKS_PER_DIRECTORY : Nat := 4

def ENTRIES_PER_DIRECTORY : Nat := 48

-- DirectoryOffset constants from apex_disk.hh.
namespace DirectoryOffset

def FILENAME : Nat := 0

def STATUS : Nat := (FILENAME_CHARS + EXTENSION_CHARS) * ENTRIES_PER_DIRECTORY

def FIRST_BLOCK : Nat := 12 * ENTRIES_PER_DIRECTORY

def LAST_BLOCK : Nat := 14 * ENTRIES_PER_DIRECTORY

def DIRCHG : Nat := 0x349

def PMAXB : Nat := 0x34b

def PRNAME : Nat := 0x34d

def TITLE : Nat := 0x358

def VOLUME : Nat := 0x394

def DIRDAT : Nat := 0x396

def FDATE : Nat := 0x398

def FLAG_LOCK : Nat := 0x3fb

end DirectoryOffset

def MAX_TITLE_CHARS : Nat := 32

/-- `disk_area_block_range[FILE_AREA].begin` from apex_disk.hh. -/
def FILE_AREA_BEGIN : Nat := 17

/-- Directory::read_u16 — little-endian 16-bit read from the buffer. -/
def read_u16 (d : Nat → Nat) (offset : Nat) : Nat :=
  d offset ||| (d (offset + 1) <<< 8)

/-- Directory::write_u16 — the argument is a uint16, so its bytes are
`value % 256` and `value / 256 % 256`. -/
def write_u16 (d : Nat → Nat) (offset value : Nat) : Nat → Nat :=
  fun a =>
    if a = offset then value % 256
    else if a = offset + 1 then value / 256 % 256
    else d a

/-- memcpy of a list of bytes into the buffer at an offset. -/
def write_bytes (d : Nat → Nat) (offset : Nat) (bytes : List Nat) : Nat → Nat :=
  fun a =>
    if offset ≤ a ∧ a < offset + bytes.length then bytes.getD (a - offset) 0
    else d a

/-- DirectoryEntry::get_status (status byte; INVALID = 0, VALID = 1). -/
def get_status (d : Nat → Nat) (i : Nat) : Nat := d (DirectoryOffset.STATUS + i)

/-- DirectoryEntry::get_first_block. -/
def get_first_block (d : Nat → Nat) (i : Nat) : Nat :=
  read_u16 d (DirectoryOffset.FIRST_BLOCK + i * 2)

/-- DirectoryEntry::get_last_block. -/
def get_last_block (d : Nat → Nat) (i : Nat) : Nat :=
  read_u16 d (DirectoryOffset.LAST_BLOCK + i * 2)

/-- Directory::volume_size_blocks = PMAXB field + 1. -/
def volume_size_blocks (d : Nat → Nat) : Nat := read_u16 d DirectoryOffset.PMAXB + 1

/-- A Directory bound to its Disk: the image bytes, the fixed start block
(9 for primary, 13 for backup) and the in-memory 1024-byte buffer. -/
structure DirState where
  disk : Nat → Nat
  start_block : Nat
  dirData : Nat → Nat

/-- Directory::update_disk_image — Disk::write(start_block, 4, data), which
lands at byte offset start_block × 256 of the image ((block / 16) becomes the
track and (block % 16) the sector, so the byte offset is block × 256); the
4 × 256 directory bytes always lie inside the 143,360-byte image for the
start blocks 9 and 13 used by the program, so the bounds branch of
DiskImage::write cannot throw here. -/
def update_disk_image (s : DirState) : DirState :=
  { s with disk := fun a =>
      if s.start_block * 256 ≤ a ∧ a < s.start_block * 256 + BLOCKS_PER_DIRECTORY * 256
      then s.dirData (a - s.start_block * 256)
      else s.disk a }

/-- The write-through property: the four directory blocks stored in the disk
image are byte-for-byte equal to the in-memory buffer. -/
def Persisted (s : DirState) : Prop :=
  ∀ i < BLOCKS_PER_DIRECTORY * 256, s.disk (s.start_block * 256 + i) = s.dirData i

/-- Directory::set_unsorted — writes DIRCHG in the buffer only. -/
def set_unsorted (s : DirState) (unsorted : Bool) : DirState :=
  { s with dirData := fun a =>
      if a = DirectoryOffset.DIRCHG then (if unsorted then 0xff else 0x00)
      else s.dirData a }

/-- Directory::set_locked — writes FLAG_LOCK in the buffer only (0 when
locked, 0xff when unlocked). -/
def set_locked (s : DirState) (locked : Bool) : DirState :=
  { s with dirData := fun a =>
      if a = DirectoryOffset.FLAG_LOCK then (if locked then 0x00 else 0xff)
      else s.dirData a }

/-- Directory::set_date — writes the raw date and persists. -/
def set_date (s : DirState) (new_date_raw : Nat) : DirState :=
  update_disk_image { s with dirData := write_u16 s.dirData DirectoryOffset.DIRDAT new_date_raw }

/-- The byte-writing loop of Directory::set_title: at most 32 bytes of the
title, the final byte with the high bit set. -/
def write_title (d : Nat → Nat) (t : List Nat) : Nat → Nat :=
  (List.range (min MAX_TITLE_CHARS t.length)).foldl
    (fun d i => fun a =>
      if a = DirectoryOffset.TITLE + i
      then (if i = t.length - 1 then t.getD i 0 ||| 0x80 else t.getD i 0)
      else d a)
    d

/-- Directory::set_title — an empty title becomes a carriage return; then
the byte loop runs and the buffer is persisted. -/
def set_title (s : DirState) (new_title : List Nat) : DirState :=
  if new_title = [] then
    update_disk_image { s with dirData := write_title s.dirData [0x0d] }
  else
    update_disk_image { s with dirData := write_title s.dirData new_title }

/-- DirectoryEntry::delete_file — sets the slot's status byte to INVALID and
persists (the bitmap is derived state, recomputed from the buffer). -/
def delete_file (s : DirState) (i : Nat) : DirState :=
  update_disk_image
    { s with dirData := fun a =>
        if a = DirectoryOffset.STATUS + i then 0 else s.dirData a }

/-- DirectoryEntry::replace — throws (flag false, state unchanged: the throw
happens before any mutation) unless the slot status is INVALID; otherwise
writes the status, the upcased 8+3 filename, the block range, the date,
marks the directory unsorted and persists. -/
def DirectoryEntry.replace (s : DirState) (i status : Nat) (filename : Filename)
    (first_block last_block date_raw : Nat) : DirState × Bool :=
  if s.dirData (DirectoryOffset.STATUS + i) ≠ 0 then (s, false)
  else
    let fn := filename.upcase
    let d1 := fun a => if a = DirectoryOffset.STATUS + i then status else s.dirData a
    let filename_offset := DirectoryOffset.FILENAME + i * (FILENAME_CHARS + EXTENSION_CHARS)
    let d2 := write_bytes d1 filename_offset (fn.name.map Char.toNat)
    let d3 := write_bytes d2 (filename_offset + FILENAME_CHARS) (fn.ext.map Char.toNat)
    let d4 := write_u16 d3 (DirectoryOffset.FIRST_BLOCK + i * 2) first_block
    let d5 := write_u16 d4 (DirectoryOffset.LAST_BLOCK + i * 2) last_block
    let d6 := write_u16 d5 (DirectoryOffset.FDATE + i * 2) date_raw
    (update_disk_image (set_unsorted { s with dirData := d6 } true), true)

/-- Directory::initialize — assumes a zeroed buffer; sets PMAXB (block_count
is a uint16, so block_count − 1 wraps at 2^16), the volume number, today's
date (the host clock value is passed in as `today_raw`), the default title
byte, a space-filled PRNAME, unsorted = true, locked = false, then persists. -/
def initVolume (s : DirState) (block_count volume_number today_raw : Nat) : DirState :=
  let d1 := write_u16 s.dirData DirectoryOffset.PMAXB ((block_count + 65535) % 65536)
  let d2 := write_u16 d1 DirectoryOffset.VOLUME volume_number
  let d3 := write_u16 d2 DirectoryOffset.DIRDAT today_raw
  let d4 := fun a => if a = DirectoryOffset.TITLE then 0x0d + 0x80 else d3 a
  let d5 := write_bytes d4 DirectoryOffset.PRNAME
      (List.replicate (FILENAME_CHARS + EXTENSION_CHARS) 0x20)
  update_disk_image (set_locked (set_unsorted { s with dirData := d5 } true) false)

end Apex

/-- A concrete directory state: primary directory (start block 9) of an
all-zero disk image, with an all-zero in-memory buffer. -/
def zero_dir_state : Apex.DirState := ⟨fun _ => 0, 9, fun _ => 0⟩

/-- A concrete directory state for exercising replace: backup directory
(start block 13) of an all-zero image with an all-zero buffer. -/
def c3_state : Apex.DirState := ⟨fun _ => 0, 13, fun _ => 0⟩

/-- A concrete lowercase 8+3 filename. -/
def c3_fn : Apex.Filename :=
  ⟨['a', 'b', ' ', ' ', ' ', ' ', ' ', ' '], ['t', 'x', 't'], false⟩

/-! ### Free-block bitmap and first-fit allocation (apex_disk.cc) -/

namespace Apex

/-- The inner marking loop of Directory::update_free_bitmap for one VALID
entry: `for (block = first; block <= last; block++) m_free_bitmap[block] = false`. -/
def clear_range (bm : List Bool) (first lastb : Nat) : List Bool :=
  (List.range' first (lastb + 1 - first)).foldl (fun b blk => b.set blk false) bm

/-- Directory::update_free_bitmap as the pure function of the directory
buffer it computes: a bitmap of volume_size_blocks bits, file-area blocks
(17 ≤ b) free, then every VALID entry's [first_block, last_block] range
cleared. The source recomputes this at construction and after every entry
mutation, so the bitmap state is always this function of the buffer. -/
def update_free_bitmap (d : Nat → Nat) : List Bool :=
  (List.range ENTRIES_PER_DIRECTORY).foldl
    (fun bm i =>
      if get_status d i = 1 then clear_range bm (get_first_block d i) (get_last_block d i)
      else bm)
    ((List.range (volume_size_blocks d)).map (fun b => decide (FILE_AREA_BEGIN ≤ b)))

/-- Directory::volume_free_blocks — population count of the free bitmap. -/
def volume_free_blocks (d : Nat → Nat) : Nat := (update_free_bitmap d).count true

/-- The bitmap indices written by the initial marking loop of
update_free_bitmap (blocks FILE_AREA.begin .. max_block-1). -/
def free_bitmap_mark_indices (d : Nat → Nat) : List Nat :=
  List.range' FILE_AREA_BEGIN (volume_size_blocks d - FILE_AREA_BEGIN)

/-- The bitmap indices read and written by the VALID-entry marking loops of
update_free_bitmap (each VALID entry's first_block .. last_block). -/
def free_bitmap_clear_indices (d : Nat → Nat) : List Nat :=
  (List.range ENTRIES_PER_DIRECTORY).flatMap
    (fun i => if get_status d i = 1
      then List.range' (get_first_block d i) (get_last_block d i + 1 - get_first_block d i)
      else [])

/-- boost::dynamic_bitset find_first / find_next: the least index ≥ s whose
bit equals v, with the bitmap size standing in for npos (every use in the
source either compares the result against max_block or clamps it there, so
the two sentinels behave identically). -/
def find_from (bm : List Bool) (v : Bool) (s : Nat) : Nat :=
  if h : s < bm.length then
    if bm.get ⟨s, h⟩ = v then s else find_from bm v (s + 1)
  else s
termination_by bm.length - s

/-- find_from never moves backwards (needed to justify the termination of
the find_free_blocks loop). -/
lemma le_find_from (bm : List Bool) (v : Bool) (s : Nat) : s ≤ find_from bm v s := by
  induction s using find_from.induct bm v with
  | case1 s h hv => rw [find_from, dif_pos h, if_pos hv]
  | case2 s h hv ih => rw [find_from, dif_pos h, if_neg hv]; omega
  | case3 s h => rw [find_from, dif_neg h]

/-- The while loop of Directory::find_free_blocks: f is free_block_num, the
min-clamped find_next on the complement bitmap is used_block_num, and the
run [f, used_block_num) is accepted when its length reaches n. -/
def ffb_loop (bm : List Bool) (max_block n f : Nat) : Nat :=
  if hf : f < max_block then
    if n ≤ min (find_from bm false (f + 1)) max_block - f then f
    else ffb_loop bm max_block n (find_from bm true (min (find_from bm false (f + 1)) max_block + 1))
  else 0
termination_by max_block - f
decreasing_by
  have ha := le_find_from bm false (f + 1)
  have hb := le_find_from bm true (min (find_from bm false (f + 1)) max_block + 1)
  omega

/-- Directory::find_free_blocks — first-fit over the free bitmap, 0 when no
run of the requested length exists. -/
def find_free_blocks (d : Nat → Nat) (requested_block_count : Nat) : Nat :=
  ffb_loop (update_free_bitmap d) (volume_size_blocks d) requested_block_count
    (find_from (update_free_bitmap d) true 0)

/-- s starts a window of n free bits inside the bitmap. -/
def goodStart (bm : List Bool) (n s : Nat) : Prop :=
  s + n ≤ bm.length ∧ ∀ k, k < n → bm.getD (s + k) false = true

instance goodStart_decidable (bm : List Bool) (n s : Nat) : Decidable (goodStart bm n s) := by
  unfold goodStart
  infer_instance

end Apex

/-- An all-zero directory buffer except PMAXB = 0x22f, i.e. a 560-block
volume with no entries at all (every status byte INVALID). -/
def c1_empty_dir : Nat → Nat :=
  fun a => if a = 843 then 0x2f else if a = 844 then 0x02 else 0

/-- The 560-block empty volume as a primary-directory state over an
all-zero image. -/
def c1_state : Apex.DirState := ⟨fun _ => 0, 9, c1_empty_dir⟩

/-- A concrete plain 8+3 filename for C1's example entry. -/
def c1_fn : Apex.Filename :=
  ⟨['f', 'o', 'o', ' ', ' ', ' ', ' ', ' '], ['b', 'i', 'n'], false⟩

/-- A 37-block directory whose free bitmap has free runs of lengths 3
(blocks 17-19), 10 (blocks 21-30) and 5 (blocks 32-36): entry 0 is VALID on
[20,20] and entry 1 is VALID on [31,31]. -/
def c2_dir : Nat → Nat := fun a =>
  if a = 843 then 36
  else if a = 528 then 1
  else if a = 529 then 1
  else if a = 576 then 20
  else if a = 578 then 31
  else if a = 672 then 20
  else if a = 674 then 31
  else 0

/-! ### Helper lemmas -/

/-- After Directory::update_disk_image the four directory blocks in the
image agree byte-for-byte with the in-memory buffer. -/
lemma Persisted_update_disk_image (s : Apex.DirState) :
    Apex.Persisted (Apex.update_disk_image s) := by
  intro i hi
  simp only [Apex.update_disk_image]
  rw [if_pos ⟨Nat.le_add_right _ _, by omega⟩]
  congr 1
  omega

lemma getD_map_map_toNat (l : List Char) (x k : Nat) (hx : x = k) (hk : k < l.length) :
    ((l.map Apex.upcase_character).map Char.toNat).getD x 0 =
      (Apex.upcase_character (l.getD k ' ')).toNat := by
  subst hx
  rw [List.getD_eq_getElem?_getD, List.getElem?_map, List.getElem?_map,
      List.getElem?_eq_getElem hk]
  simp [List.getD_eq_getElem?_getD, List.getElem?_eq_getElem hk]

lemma replace_success_dirData (s : Apex.DirState) (i status first_block last_block date_raw : Nat)
    (fn : Apex.Filename) (h : s.dirData (Apex.DirectoryOffset.STATUS + i) = 0) :
    (Apex.DirectoryEntry.replace s i status fn first_block last_block date_raw).1.dirData =
      fun a =>
        if a = Apex.DirectoryOffset.DIRCHG then 0xff
        else Apex.write_u16 (Apex.write_u16 (Apex.write_u16
              (Apex.write_bytes (Apex.write_bytes
                (fun b => if b = Apex.DirectoryOffset.STATUS + i then status else s.dirData b)
                (Apex.DirectoryOffset.FILENAME + i * (Apex.FILENAME_CHARS + Apex.EXTENSION_CHARS))
                (fn.upcase.name.map Char.toNat))
               (Apex.DirectoryOffset.FILENAME + i * (Apex.FILENAME_CHARS + Apex.EXTENSION_CHARS) +
                 Apex.FILENAME_CHARS)
               (fn.upcase.ext.map Char.toNat))
              (Apex.DirectoryOffset.FIRST_BLOCK + i * 2) first_block)
             (Apex.DirectoryOffset.LAST_BLOCK + i * 2) last_block)
            (Apex.DirectoryOffset.FDATE + i * 2) date_raw a := by
  unfold Apex.DirectoryEntry.replace
  rw [if_neg (by simp [h])]
  rfl

namespace Apex

lemma find_from_le_length (bm : List Bool) (v : Bool) (s : Nat) (hs : s ≤ bm.length) :
    find_from bm v s ≤ bm.length := by
  induction s using find_from.induct bm v with
  | case1 s h hv => rw [find_from, dif_pos h, if_pos hv]; omega
  | case2 s h hv ih => rw [find_from, dif_pos h, if_neg hv]; exact ih (by omega)
  | case3 s h => rw [find_from, dif_neg h]; exact hs

lemma find_from_getD (bm : List Bool) (v : Bool) (s : Nat)
    (h : find_from bm v s < bm.length) : bm.getD (find_from bm v s) false = v := by
  induction s using find_from.induct bm v with
  | case1 s hs hv =>
    rw [find_from, dif_pos hs] at h ⊢
    rw [if_pos hv]
    rw [List.getD_eq_getElem?_getD, List.getElem?_eq_getElem hs]
    simpa using hv
  | case2 s hs hv ih =>
    rw [find_from, dif_pos hs, if_neg hv] at h ⊢
    exact ih h
  | case3 s hs =>
    rw [find_from, dif_neg hs] at h
    omega

lemma find_from_min (bm : List Bool) (v : Bool) (s j : Nat)
    (h1 : s ≤ j) (h2 : j < find_from bm v s) (h3 : j < bm.length) :
    ¬ bm.getD j false = v := by
  induction s using find_from.induct bm v with
  | case1 s hs hv =>
    rw [find_from, dif_pos hs, if_pos hv] at h2
    omega
  | case2 s hs hv ih =>
    rw [find_from, dif_pos hs, if_neg hv] at h2
    rcases Nat.eq_or_lt_of_le h1 with rfl | h4
    · intro hc
      rw [List.getD_eq_getElem?_getD, List.getElem?_eq_getElem hs] at hc
      exact hv (by simpa using hc)
    · exact ih (by omega) h2
  | case3 s hs =>
    rw [find_from, dif_neg hs] at h2
    omega

lemma ffb_loop_spec (bm : List Bool) (n : Nat) (hn : 1 ≤ n) :
    ∀ (meas f : Nat), meas = bm.length - f →
      (∀ s, s < f → ¬ goodStart bm n s) →
      (f < bm.length → bm.getD f false = true) →
      ((∃ s, goodStart bm n s) →
        goodStart bm n (ffb_loop bm bm.length n f) ∧
        ∀ s, s < ffb_loop bm bm.length n f → ¬ goodStart bm n s) ∧
      ((∀ s, ¬ goodStart bm n s) → ffb_loop bm bm.length n f = 0) := by
  intro meas
  induction meas using Nat.strong_induction_on with
  | _ meas ih =>
    intro f hmeas hmin hfree
    by_cases hf : f < bm.length
    · have hfle : find_from bm false (f + 1) ≤ bm.length :=
        find_from_le_length bm false (f + 1) (by omega)
      have hmineq : min (find_from bm false (f + 1)) bm.length = find_from bm false (f + 1) :=
        Nat.min_eq_left hfle
      have hu1 : f + 1 ≤ find_from bm false (f + 1) := le_find_from bm false (f + 1)
      have hfreedom : ∀ j, f ≤ j → j < find_from bm false (f + 1) → bm.getD j false = true := by
        intro j hj1 hj2
        rcases Nat.eq_or_lt_of_le hj1 with rfl | hj
        · exact hfree hf
        · have hjlen : j < bm.length := by omega
          have := find_from_min bm false (f + 1) j (by omega) hj2 hjlen
          cases hgb : bm.getD j false
          · exact absurd hgb this
          · rfl
      by_cases hcnt : n ≤ min (find_from bm false (f + 1)) bm.length - f
      · rw [ffb_loop, dif_pos hf, if_pos hcnt]
        have hgood : goodStart bm n f := by
          constructor
          · omega
          · intro k hk
            exact hfreedom (f + k) (Nat.le_add_right f k) (by omega)
        exact ⟨fun _ => ⟨hgood, hmin⟩, fun hall => absurd hgood (hall f)⟩
      · rw [ffb_loop, dif_pos hf, if_neg hcnt]
        rw [hmineq] at hcnt ⊢
        have hnext : find_from bm false (f + 1) + 1 ≤
            find_from bm true (find_from bm false (f + 1) + 1) :=
          le_find_from bm true (find_from bm false (f + 1) + 1)
        have hmin2 : ∀ s, s < find_from bm true (find_from bm false (f + 1) + 1) →
            ¬ goodStart bm n s := by
          intro s hs hgs
          rcases Nat.lt_or_ge s f with h | h
          · exact hmin s h hgs
          · rcases Nat.lt_or_ge s (find_from bm false (f + 1)) with h2 | h2
            · have hsn : find_from bm false (f + 1) < s + n := by omega
              have hul : find_from bm false (f + 1) < bm.length := by
                have := hgs.1
                omega
              have hufalse : bm.getD (find_from bm false (f + 1)) false = false :=
                find_from_getD bm false (f + 1) hul
              have hw := hgs.2 (find_from bm false (f + 1) - s) (by omega)
              rw [show s + (find_from bm false (f + 1) - s) = find_from bm false (f + 1) from by
                omega] at hw
              rw [hufalse] at hw
              exact Bool.false_ne_true hw
            · have hslen : s < bm.length := by
                have := hgs.1
                omega
              rcases Nat.eq_or_lt_of_le h2 with heq | h3
              · have hufalse : bm.getD s false = false := by
                  rw [← heq]
                  exact find_from_getD bm false (f + 1) (heq ▸ hslen)
                have hw := hgs.2 0 (by omega)
                rw [Nat.add_zero, hufalse] at hw
                exact Bool.false_ne_true hw
              · have := find_from_min bm true (find_from bm false (f + 1) + 1) s
                  (by omega) hs hslen
                have hw := hgs.2 0 (by omega)
                rw [Nat.add_zero] at hw
                exact this hw
        have hfree2 : find_from bm true (find_from bm false (f + 1) + 1) < bm.length →
            bm.getD (find_from bm true (find_from bm false (f + 1) + 1)) false = true :=
          fun hl => find_from_getD bm true (find_from bm false (f + 1) + 1) hl
        exact ih (bm.length - find_from bm true (find_from bm false (f + 1) + 1))
          (by omega) (find_from bm true (find_from bm false (f + 1) + 1)) rfl hmin2 hfree2
    · rw [ffb_loop, dif_neg hf]
      constructor
      · rintro ⟨s, hs⟩
        exfalso
        rcases Nat.lt_or_ge s f with h | h
        · exact hmin s h hs
        · have := hs.1
          omega
      · intro _
        rfl

lemma foldl_set_false_length (l : List Nat) (bm : List Bool) :
    (l.foldl (fun b blk => b.set blk false) bm).length = bm.length := by
  induction l generalizing bm with
  | nil => rfl
  | cons x xs ih => rw [List.foldl_cons, ih, List.length_set]

lemma foldl_set_false_getD (l : List Nat) (bm : List Bool) (k : Nat) :
    (l.foldl (fun b blk => b.set blk false) bm).getD k false =
      if k ∈ l ∧ k < bm.length then false else bm.getD k false := by
  induction l generalizing bm with
  | nil => simp
  | cons x xs ih =>
    rw [List.foldl_cons, ih]
    by_cases h1 : k ∈ xs ∧ k < bm.length
    · rw [if_pos (by simpa [List.length_set] using h1),
        if_pos ⟨List.mem_cons_of_mem _ h1.1, h1.2⟩]
    · rw [if_neg (by simpa [List.length_set] using h1)]
      by_cases h2 : x = k ∧ k < bm.length
      · obtain ⟨rfl, hk⟩ := h2
        rw [if_pos ⟨List.mem_cons_self _ _, hk⟩]
        simp [List.getD_eq_getElem?_getD, List.getElem?_set_self', List.getElem?_eq_getElem hk]
      · have hne : (bm.set x false).getD k false = bm.getD k false := by
          by_cases hx : x = k
          · subst hx
            have hk : ¬ x < bm.length := fun hk => h2 ⟨rfl, hk⟩
            rw [List.getD_eq_getElem?_getD, List.getD_eq_getElem?_getD,
              List.getElem?_eq_none (by simpa [List.length_set] using Nat.le_of_not_lt hk),
              List.getElem?_eq_none (Nat.le_of_not_lt hk)]
          · rw [List.getD_eq_getElem?_getD, List.getD_eq_getElem?_getD,
              List.getElem?_set_ne hx]
        rw [hne, if_neg]
        rintro ⟨hmem, hlen⟩
        rcases List.mem_cons.mp hmem with h | h
        · exact h2 ⟨h.symm, hlen⟩
        · exact h1 ⟨h, hlen⟩

lemma clear_range_length (bm : List Bool) (a c : Nat) :
    (clear_range bm a c).length = bm.length := foldl_set_false_length _ _

lemma clear_range_getD (bm : List Bool) (a c b : Nat) :
    (clear_range bm a c).getD b false =
      if a ≤ b ∧ b ≤ c ∧ b < bm.length then false else bm.getD b false := by
  unfold clear_range
  rw [foldl_set_false_getD]
  by_cases h : a ≤ b ∧ b ≤ c ∧ b < bm.length
  · rw [if_pos ⟨List.mem_range'_1.mpr (by omega), h.2.2⟩, if_pos h]
  · rw [if_neg, if_neg h]
    rintro ⟨hm, hl⟩
    have := List.mem_range'_1.mp hm
    exact h (by omega)

lemma foldl_entries_length (d : Nat → Nat) (es : List Nat) (bm : List Bool) :
    (es.foldl (fun bm i =>
        if get_status d i = 1 then clear_range bm (get_first_block d i) (get_last_block d i)
        else bm) bm).length = bm.length := by
  induction es generalizing bm with
  | nil => rfl
  | cons x xs ih =>
    rw [List.foldl_cons, ih]
    split
    · exact clear_range_length _ _ _
    · rfl

lemma foldl_entries_getD (d : Nat → Nat) (es : List Nat) (bm : List Bool) (b : Nat) :
    (es.foldl (fun bm i =>
        if get_status d i = 1 then clear_range bm (get_first_block d i) (get_last_block d i)
        else bm) bm).getD b false =
      if (∃ i ∈ es, get_status d i = 1 ∧ get_first_block d i ≤ b ∧ b ≤ get_last_block d i)
          ∧ b < bm.length
      then false else bm.getD b false := by
  induction es generalizing bm with
  | nil => simp
  | cons x xs ih =>
    rw [List.foldl_cons, ih]
    have hlen : (if get_status d x = 1
        then clear_range bm (get_first_block d x) (get_last_block d x) else bm).length =
        bm.length := by
      split
      · exact clear_range_length _ _ _
      · rfl
    rw [hlen]
    by_cases hxs : (∃ i ∈ xs, get_status d i = 1 ∧ get_first_block d i ≤ b ∧
        b ≤ get_last_block d i) ∧ b < bm.length
    · have hc : (∃ i ∈ x :: xs, get_status d i = 1 ∧ get_first_block d i ≤ b ∧
          b ≤ get_last_block d i) ∧ b < bm.length := by
        obtain ⟨⟨i, hi, hp⟩, hb⟩ := hxs
        exact ⟨⟨i, List.mem_cons_of_mem _ hi, hp⟩, hb⟩
      rw [if_pos hxs, if_pos hc]
    · rw [if_neg hxs]
      by_cases hx : (get_status d x = 1 ∧ get_first_block d x ≤ b ∧ b ≤ get_last_block d x)
          ∧ b < bm.length
      · have hc : (∃ i ∈ x :: xs, get_status d i = 1 ∧ get_first_block d i ≤ b ∧
            b ≤ get_last_block d i) ∧ b < bm.length :=
          ⟨⟨x, List.mem_cons_self _ _, hx.1⟩, hx.2⟩
        rw [if_pos hc, if_pos hx.1.1, clear_range_getD,
          if_pos (show _ ∧ _ ∧ _ from ⟨hx.1.2.1, hx.1.2.2, hx.2⟩)]
      · have hcneg : ¬ ((∃ i ∈ x :: xs, get_status d i = 1 ∧ get_first_block d i ≤ b ∧
            b ≤ get_last_block d i) ∧ b < bm.length) := by
          rintro ⟨⟨i, hi, hp⟩, hb⟩
          rcases List.mem_cons.mp hi with rfl | h
          · exact hx ⟨hp, hb⟩
          · exact hxs ⟨⟨i, h, hp⟩, hb⟩
        rw [if_neg hcneg]
        by_cases hs : get_status d x = 1
        · rw [if_pos hs, clear_range_getD, if_neg]
          rintro ⟨ha, hc, hb⟩
          exact hx ⟨⟨hs, ha, hc⟩, hb⟩
        · rw [if_neg hs]

lemma update_free_bitmap_length (d : Nat → Nat) :
    (update_free_bitmap d).length = volume_size_blocks d := by
  unfold update_free_bitmap
  rw [foldl_entries_length, List.length_map, List.length_range]

lemma update_free_bitmap_getD (d : Nat → Nat) (b : Nat) :
    (update_free_bitmap d).getD b false = true ↔
      (FILE_AREA_BEGIN ≤ b ∧ b < volume_size_blocks d ∧
        ¬ ∃ i, i < ENTRIES_PER_DIRECTORY ∧ get_status d i = 1 ∧
          get_first_block d i ≤ b ∧ b ≤ get_last_block d i) := by
  unfold update_free_bitmap
  rw [foldl_entries_getD]
  rw [List.length_map, List.length_range]
  by_cases hb : b < volume_size_blocks d
  · have hinit : ((List.range (volume_size_blocks d)).map
        (fun b => decide (FILE_AREA_BEGIN ≤ b))).getD b false = decide (FILE_AREA_BEGIN ≤ b) := by
      rw [List.getD_eq_getElem?_getD, List.getElem?_map, List.getElem?_range hb]
      rfl
    by_cases hcov : ∃ i ∈ List.range ENTRIES_PER_DIRECTORY,
        get_status d i = 1 ∧ get_first_block d i ≤ b ∧ b ≤ get_last_block d i
    · rw [if_pos ⟨hcov, hb⟩]
      obtain ⟨i, hi, hp⟩ := hcov
      constructor
      · intro h
        exact absurd h (by simp)
      · rintro ⟨-, -, hnone⟩
        exact absurd ⟨i, List.mem_range.mp hi, hp⟩ hnone
    · rw [if_neg (fun hc => hcov hc.1), hinit]
      simp only [decide_eq_true_eq]
      constructor
      · intro h
        refine ⟨h, hb, ?_⟩
        rintro ⟨i, hi, hp⟩
        exact hcov ⟨i, List.mem_range.mpr hi, hp⟩
      · rintro ⟨h, -, -⟩
        exact h
  · rw [if_neg (fun hc => hb hc.2)]
    have : ((List.range (volume_size_blocks d)).map
        (fun b => decide (FILE_AREA_BEGIN ≤ b))).getD b false = false := by
      rw [List.getD_eq_getElem?_getD, List.getElem?_eq_none]
      · rfl
      · rw [List.length_map, List.length_range]; omega
    rw [this]
    constructor
    · intro h
      exact absurd h (by simp)
    · rintro ⟨-, hlt, -⟩
      exact absurd hlt hb

/-- When no entry is VALID the marking loops do nothing. -/
lemma foldl_entries_id (d : Nat → Nat) (es : List Nat) (bm : List Bool)
    (h : ∀ i ∈ es, get_status d i ≠ 1) :
    (es.foldl (fun bm i =>
        if get_status d i = 1 then clear_range bm (get_first_block d i) (get_last_block d i)
        else bm) bm) = bm := by
  induction es generalizing bm with
  | nil => rfl
  | cons x xs ih =>
    simp only [List.foldl_cons]
    rw [if_neg (h x (List.mem_cons_self _ _))]
    exact ih bm (fun i hi => h i (List.mem_cons_of_mem _ hi))

/-- The freshly initialized bitmap has n - 17 set bits. -/
lemma count_init (n : Nat) :
    ((List.range n).map (fun b => decide (FILE_AREA_BEGIN ≤ b))).count true =
      n - FILE_AREA_BEGIN := by
  induction n with
  | zero => rfl
  | succ m ih =>
    rw [List.range_succ, List.map_append, List.count_append, ih]
    by_cases h : FILE_AREA_BEGIN ≤ m
    · simp only [FILE_AREA_BEGIN] at h ⊢
      simp [h, List.count_cons]
      omega
    · simp only [FILE_AREA_BEGIN] at h ⊢
      simp [h, List.count_cons]
      omega

/-- A minimal good start of a free window sits at the start of a maximal
free run: the bit just before it (when it exists) is not free. -/
lemma goodStart_pred_false (bm : List Bool) (n r : Nat)
    (hg : goodStart bm n r) (hr1 : ¬ goodStart bm n (r - 1)) (h0 : r ≠ 0) :
    bm.getD (r - 1) false = false := by
  cases hb : bm.getD (r - 1) false
  · rfl
  · exfalso
    apply hr1
    constructor
    · have := hg.1
      omega
    · intro k hk
      rcases k with _ | j
      · rw [Nat.add_zero]
        exact hb
      · rw [show r - 1 + (j + 1) = r + j from by omega]
        exact hg.2 j (by omega)

end Apex

/-! ### Claim theorems -/

/-- Claim C4: for every supported image format and every sector index x in
0..15, the logical-to-physical and physical-to-logical sector tables are
mutual inverses, i.e. each per-format table is a bijection on sector
numbers. -/
theorem C4_sector_maps_mutual_inverses :
    ∀ (format : AppleIIDiskImage.ImageFormat) (x : Nat), x < 16 →
      (AppleIIDiskImage.logical_to_physical_sector_map format).getD
        ((AppleIIDiskImage.physical_to_logical_sector_map format).getD x 0) 0 = x ∧
      (AppleIIDiskImage.physical_to_logical_sector_map format).getD
        ((AppleIIDiskImage.logical_to_physical_sector_map format).getD x 0) 0 = x := by
  decide

/-- Witness for C4: the DOS-order tables round-trip physical sector 3. -/
theorem C4_sector_maps_mutual_inverses_witness :
    3 < 16 ∧
    ((AppleIIDiskImage.logical_to_physical_sector_map AppleIIDiskImage.ImageFormat.DOS_ORDER).getD
      ((AppleIIDiskImage.physical_to_logical_sector_map AppleIIDiskImage.ImageFormat.DOS_ORDER).getD 3 0) 0 = 3 ∧
     (AppleIIDiskImage.physical_to_logical_sector_map AppleIIDiskImage.ImageFormat.DOS_ORDER).getD
      ((AppleIIDiskImage.logical_to_physical_sector_map AppleIIDiskImage.ImageFormat.DOS_ORDER).getD 3 0) 0 = 3) :=
  ⟨by decide,
   C4_sector_maps_mutual_inverses AppleIIDiskImage.ImageFormat.DOS_ORDER 3 (by decide)⟩

/-- Claim C6 (evaluation of the code): the claim says every 16-sector format
serializes to 35 × 16 × 256 = 143,360 bytes. DOS-, CPM- and Apex-order do,
but the geometry table's PRODOS_ORDER entry records 265 bytes per sector, so
`get_bytes_per_disk` yields 265 × 16 × 1 × 35 = 148,400 there. -/
theorem C6_bytes_per_disk_eval :
    AppleII.get_bytes_per_disk AppleII.ImageFormat.DOS_ORDER = 143360 ∧
    AppleII.get_bytes_per_disk AppleII.ImageFormat.CPM_ORDER = 143360 ∧
    AppleII.get_bytes_per_disk AppleII.ImageFormat.APEX_ORDER = 143360 ∧
    AppleII.get_bytes_per_disk AppleII.ImageFormat.PRODOS_ORDER = 148400 := by
  decide

/-- Claim C7: block-addressed disk-image read and write fail with an
out-of-range error exactly when the computed byte offset plus byte count is
`≥` the image buffer size, and otherwise copy the requested bytes; an access
whose end offset equals the buffer size (the very last block of a
maximal-size volume) is rejected rather than performed. -/
theorem C7_read_write_bounds :
    (∀ (img : AppleII.DiskImage) (track head sector sector_count : Nat) (data : Nat → Nat),
      (img.read track head sector sector_count = none ↔
        img.m_size ≤ img.byte_offset track head sector +
          sector_count * (AppleII.geometry img.m_format).bytes_per_sector) ∧
      (img.write track head sector sector_count data = none ↔
        img.m_size ≤ img.byte_offset track head sector +
          sector_count * (AppleII.geometry img.m_format).bytes_per_sector) ∧
      (∀ l, img.read track head sector sector_count = some l →
        l.length = sector_count * (AppleII.geometry img.m_format).bytes_per_sector ∧
        ∀ k, k < l.length →
          l.getD k 0 = img.m_data (img.byte_offset track head sector + k)) ∧
      (∀ img2, img.write track head sector sector_count data = some img2 →
        (∀ a, img.byte_offset track head sector ≤ a →
            a < img.byte_offset track head sector +
              sector_count * (AppleII.geometry img.m_format).bytes_per_sector →
            img2.m_data a = data (a - img.byte_offset track head sector)) ∧
        (∀ a, a < img.byte_offset track head sector ∨
            img.byte_offset track head sector +
              sector_count * (AppleII.geometry img.m_format).bytes_per_sector ≤ a →
            img2.m_data a = img.m_data a))) ∧
    apex_full_image.read 34 0 15 1 = none := by
  constructor
  · intro img track head sector sector_count data
    refine ⟨?_, ?_, ?_, ?_⟩
    · simp only [AppleII.DiskImage.read]
      split <;> rename_i h <;> simp only [ge_iff_le] at h <;> simp [h]
    · simp only [AppleII.DiskImage.write]
      split <;> rename_i h <;> simp only [ge_iff_le] at h <;> simp [h]
    · intro l hl
      simp only [AppleII.DiskImage.read] at hl
      split at hl
      · exact absurd hl (by simp)
      · have hl' := Option.some_injective _ hl.symm
        subst hl'
        constructor
        · simp
        · intro k hk
          simp only [List.length_map, List.length_range] at hk
          simp [List.getD_eq_getElem?_getD, hk]
    · intro img2 h2
      simp only [AppleII.DiskImage.write] at h2
      split at h2
      · exact absurd h2 (by simp)
      · have h2' := Option.some_injective _ h2.symm
        subst h2'
        constructor
        · intro a ha hb
          dsimp only
          rw [if_pos ⟨ha, hb⟩]
        · intro a ha
          dsimp only
          rw [if_neg (by omega)]
  · decide

/-- Witness for C7: reading 4 sectors at track 0, sector 9 of the 143,360
byte Apex image succeeds and returns 4 × 256 bytes. -/
theorem C7_read_write_bounds_witness :
    apex_full_image.read 0 0 9 4 = some c7_read_result ∧
    c7_read_result.length = 4 * (AppleII.geometry apex_full_image.m_format).bytes_per_sector :=
  ⟨rfl,
   ((C7_read_write_bounds.1 apex_full_image 0 0 9 4 (fun _ => 0)).2.2.1 c7_read_result rfl).1⟩

/-- Claim C9: constructing a Date from components throws exactly when year is
outside [1976, 2103], month outside [1, 12], or day outside [1, 31]; and for
every triple within those ranges the getters return exactly (year, month,
day) — the pack/unpack round-trip is the identity on valid triples. -/
theorem C9_date_validate_roundtrip :
    ∀ year month day : Nat,
      (Apex.Date.ofComponents year month day = none ↔
        (year < 1976 ∨ 2103 < year ∨ month < 1 ∨ 12 < month ∨ day < 1 ∨ 31 < day)) ∧
      (∀ raw, Apex.Date.ofComponents year month day = some raw →
        Apex.Date.get_year raw = year ∧
        Apex.Date.get_month raw = month ∧
        Apex.Date.get_day raw = day) := by
  intro year month day
  constructor
  · simp only [Apex.Date.ofComponents, Apex.EPOCH_YEAR]
    split <;> rename_i h1
    · simp only [true_iff]; omega
    · split <;> rename_i h2
      · simp only [true_iff]; omega
      · split <;> rename_i h3
        · simp only [true_iff]; omega
        · simp only [reduceCtorEq, false_iff]; omega
  · intro raw hraw
    simp only [Apex.Date.ofComponents, Apex.EPOCH_YEAR] at hraw
    split at hraw
    · exact absurd hraw (by simp)
    · split at hraw
      · exact absurd hraw (by simp)
      · split at hraw
        · exact absurd hraw (by simp)
        · have h := Option.some_injective _ hraw.symm
          subst h
          simp only [Apex.Date.get_year, Apex.Date.get_month, Apex.Date.get_day,
            Apex.EPOCH_YEAR]
          omega

/-- Witness for C9: the date 2001-06-15 is accepted, packs to raw 13007, and
unpacks to the same components. -/
theorem C9_date_validate_roundtrip_witness :
    Apex.Date.ofComponents 2001 6 15 = some 13007 ∧
    (Apex.Date.get_year 13007 = 2001 ∧
     Apex.Date.get_month 13007 = 6 ∧
     Apex.Date.get_day 13007 = 15) :=
  ⟨by decide, (C9_date_validate_roundtrip 2001 6 15).2 13007 (by decide)⟩

/-- Claim C8: filename matching is component-wise over the 8-character name
and the 3-character extension: Filename("*.*") matches every filename;
"A?.TXT" matches "AB.TXT" and "A1.TXT" but not "ABC.TXT"; "A*" matches
"APEX" and "A"; constructing "A*B" fails; a pattern `'*'` matches the whole
remainder of its component, `'?'` matches exactly one character, a pattern
space requires a target space, and all other characters compare
case-insensitively. -/
theorem C8_filename_matching :
    ((Apex.Filename.ofPattern "*.*".toList).isSome = true ∧
     (∀ p, Apex.Filename.ofPattern "*.*".toList = some p →
        ∀ fn : Apex.Filename, p.matches fn = true)) ∧
    (Apex.pattern_matches "A?.TXT" "AB.TXT" = some true ∧
     Apex.pattern_matches "A?.TXT" "A1.TXT" = some true ∧
     Apex.pattern_matches "A?.TXT" "ABC.TXT" = some false ∧
     Apex.pattern_matches "A*" "APEX" = some true ∧
     Apex.pattern_matches "A*" "A" = some true ∧
     Apex.Filename.ofPattern "A*B".toList = none) ∧
    ((∀ ps fn, Apex.part_match ('*' :: ps) fn = true) ∧
     (∀ ps fn, Apex.part_match ('?' :: ps) fn = Apex.part_match ps fn.tail) ∧
     (∀ ps fn, Apex.part_match (' ' :: ps) fn = decide (fn.headD ' ' = ' ')) ∧
     (∀ p ps fn, p ≠ '*' → p ≠ '?' → p ≠ ' ' →
        Apex.part_match (p :: ps) fn =
          if Apex.upcase_character p = Apex.upcase_character (fn.headD ' ')
          then Apex.part_match ps fn.tail else false)) := by
  refine ⟨⟨rfl, ?_⟩, ⟨rfl, rfl, rfl, rfl, rfl, rfl⟩, ?_, ?_, ?_, ?_⟩
  · intro p hp fn
    rw [show Apex.Filename.ofPattern "*.*".toList =
          some ⟨['*', ' ', ' ', ' ', ' ', ' ', ' ', ' '], ['*', ' ', ' '], true⟩ from rfl] at hp
    injection hp with h
    subst h
    simp [Apex.Filename.matches, Apex.part_match]
  · intro ps fn
    simp [Apex.part_match]
  · intro ps fn
    simp [Apex.part_match]
  · intro ps fn
    simp [Apex.part_match]
  · intro p ps fn h1 h2 h3
    simp [Apex.part_match, h1, h2, h3]

/-- Witness for C8: the 'otherwise' clause of part_match applied at the
concrete characters X (pattern) and x (target), and the star-pattern clause
applied to the parsed "*.*" pattern. -/
theorem C8_filename_matching_witness :
    ('X' ≠ '*' ∧ 'X' ≠ '?' ∧ 'X' ≠ ' ' ∧
      Apex.Filename.ofPattern "*.*".toList =
        some ⟨['*', ' ', ' ', ' ', ' ', ' ', ' ', ' '], ['*', ' ', ' '], true⟩) ∧
    (Apex.part_match ['X'] ['x'] =
      if Apex.upcase_character 'X' = Apex.upcase_character (['x'].headD ' ')
      then Apex.part_match [] (['x'].tail) else false) ∧
    (Apex.Filename.mk ['*', ' ', ' ', ' ', ' ', ' ', ' ', ' '] ['*', ' ', ' '] true).matches
      ⟨['A', 'P', 'E', 'X', ' ', ' ', ' ', ' '], [' ', ' ', ' '], false⟩ = true :=
  ⟨⟨by decide, by decide, by decide, rfl⟩,
   C8_filename_matching.2.2.2.2.2 'X' [] ['x'] (by decide) (by decide) (by decide),
   C8_filename_matching.1.2 ⟨['*', ' ', ' ', ' ', ' ', ' ', ' ', ' '], ['*', ' ', ' '], true⟩ rfl
     ⟨['A', 'P', 'E', 'X', ' ', ' ', ' ', ' '], [' ', ' ', ' '], false⟩⟩

/-- Counterexample to claim C5 as stated: set_unsorted mutates the DIRCHG
byte of the in-memory buffer but writes nothing back to the disk image, so
after it returns the stored directory blocks differ from the buffer. -/
theorem C5_set_unsorted_not_persisted :
    ¬ Apex.Persisted (Apex.set_unsorted zero_dir_state true) := by
  intro h
  have h841 := h 0x349 (by norm_num [Apex.BLOCKS_PER_DIRECTORY])
  simp [Apex.set_unsorted, zero_dir_state, Apex.DirectoryOffset.DIRCHG] at h841

/-- Claim C5 as amended: delete_file, replace (when it succeeds), set_date,
set_title and volume initialization persist immediately — after each, the
four directory blocks in the image equal the in-memory buffer — while
set_unsorted and set_locked mutate only the in-memory buffer and write
nothing to the image (their changes are persisted by their callers). -/
theorem C5_write_through_amended :
    ∀ (s : Apex.DirState)
      (i new_date_raw block_count volume_number today_raw status
        first_block last_block date_raw : Nat)
      (new_title : List Nat) (fn : Apex.Filename),
      Apex.Persisted (Apex.delete_file s i) ∧
      Apex.Persisted (Apex.set_date s new_date_raw) ∧
      Apex.Persisted (Apex.set_title s new_title) ∧
      Apex.Persisted (Apex.initVolume s block_count volume_number today_raw) ∧
      (s.dirData (Apex.DirectoryOffset.STATUS + i) = 0 →
        Apex.Persisted
          (Apex.DirectoryEntry.replace s i status fn first_block last_block date_raw).1) ∧
      (Apex.set_unsorted s true).disk = s.disk ∧
      (Apex.set_locked s true).disk = s.disk := by
  intro s i new_date_raw block_count volume_number today_raw status
    first_block last_block date_raw new_title fn
  refine ⟨Persisted_update_disk_image _, Persisted_update_disk_image _, ?_,
    Persisted_update_disk_image _, ?_, rfl, rfl⟩
  · unfold Apex.set_title
    split <;> exact Persisted_update_disk_image _
  · intro h0
    unfold Apex.DirectoryEntry.replace
    rw [if_neg (by simp [h0])]
    exact Persisted_update_disk_image _

/-- Witness for C5 (amended): replacing into slot 0 of the all-zero state —
whose status byte is INVALID — leaves the directory blocks persisted. -/
theorem C5_write_through_amended_witness :
    zero_dir_state.dirData (Apex.DirectoryOffset.STATUS + 0) = 0 ∧
    Apex.Persisted
      (Apex.DirectoryEntry.replace zero_dir_state 0 1 ⟨[], [], false⟩ 20 25 0).1 :=
  ⟨rfl,
   (C5_write_through_amended zero_dir_state 0 0 0 0 0 1 20 25 0 [] ⟨[], [], false⟩).2.2.2.2.1 rfl⟩

set_option maxHeartbeats 1600000 in
/-- Claim C3: DirectoryEntry::replace fails whenever the slot's current
status byte is not INVALID (0x00); on that failure the directory buffer is
untouched and nothing is written back to the disk image (the throw precedes
every mutation, so the state is returned unchanged); when the status is
INVALID it succeeds and stores the given status, the upcased 8+3 filename,
and the little-endian block-range and date fields. -/
theorem C3_replace_guard :
    ∀ (s : Apex.DirState) (i status first_block last_block date_raw : Nat)
      (fn : Apex.Filename),
      i < Apex.ENTRIES_PER_DIRECTORY →
      fn.name.length = Apex.FILENAME_CHARS →
      fn.ext.length = Apex.EXTENSION_CHARS →
      (((Apex.DirectoryEntry.replace s i status fn first_block last_block date_raw).2 = false) ↔
          s.dirData (Apex.DirectoryOffset.STATUS + i) ≠ 0) ∧
      (s.dirData (Apex.DirectoryOffset.STATUS + i) ≠ 0 →
          (Apex.DirectoryEntry.replace s i status fn first_block last_block date_raw).1 = s) ∧
      (s.dirData (Apex.DirectoryOffset.STATUS + i) = 0 →
          (Apex.DirectoryEntry.replace s i status fn first_block last_block date_raw).2 = true ∧
          (Apex.DirectoryEntry.replace s i status fn first_block last_block date_raw).1.dirData
              (Apex.DirectoryOffset.STATUS + i) = status ∧
          (∀ k, k < Apex.FILENAME_CHARS →
            (Apex.DirectoryEntry.replace s i status fn first_block last_block date_raw).1.dirData
                (Apex.DirectoryOffset.FILENAME + i * 11 + k) =
              (Apex.upcase_character (fn.name.getD k ' ')).toNat) ∧
          (∀ k, k < Apex.EXTENSION_CHARS →
            (Apex.DirectoryEntry.replace s i status fn first_block last_block date_raw).1.dirData
                (Apex.DirectoryOffset.FILENAME + i * 11 + 8 + k) =
              (Apex.upcase_character (fn.ext.getD k ' ')).toNat) ∧
          (Apex.DirectoryEntry.replace s i status fn first_block last_block date_raw).1.dirData
              (Apex.DirectoryOffset.FIRST_BLOCK + i * 2) = first_block % 256 ∧
          (Apex.DirectoryEntry.replace s i status fn first_block last_block date_raw).1.dirData
              (Apex.DirectoryOffset.FIRST_BLOCK + i * 2 + 1) = first_block / 256 % 256 ∧
          (Apex.DirectoryEntry.replace s i status fn first_block last_block date_raw).1.dirData
              (Apex.DirectoryOffset.LAST_BLOCK + i * 2) = last_block % 256 ∧
          (Apex.DirectoryEntry.replace s i status fn first_block last_block date_raw).1.dirData
              (Apex.DirectoryOffset.LAST_BLOCK + i * 2 + 1) = last_block / 256 % 256 ∧
          (Apex.DirectoryEntry.replace s i status fn first_block last_block date_raw).1.dirData
              (Apex.DirectoryOffset.FDATE + i * 2) = date_raw % 256 ∧
          (Apex.DirectoryEntry.replace s i status fn first_block last_block date_raw).1.dirData
              (Apex.DirectoryOffset.FDATE + i * 2 + 1) = date_raw / 256 % 256) := by
  intro s i status first_block last_block date_raw fn hi hname hext
  simp only [Apex.ENTRIES_PER_DIRECTORY] at hi
  simp only [Apex.FILENAME_CHARS] at hname
  simp only [Apex.EXTENSION_CHARS] at hext
  by_cases h : s.dirData (Apex.DirectoryOffset.STATUS + i) = 0
  · refine ⟨by simp [Apex.DirectoryEntry.replace, h], fun hne => absurd h hne, fun _ => ?_⟩
    have hD := replace_success_dirData s i status first_block last_block date_raw fn h
    refine ⟨by simp [Apex.DirectoryEntry.replace, h], ?_, ?_, ?_, ?_, ?_, ?_, ?_, ?_, ?_⟩
    · rw [hD]
      simp only [Apex.DirectoryOffset.STATUS, Apex.DirectoryOffset.DIRCHG,
        Apex.DirectoryOffset.FDATE, Apex.DirectoryOffset.LAST_BLOCK,
        Apex.DirectoryOffset.FIRST_BLOCK, Apex.DirectoryOffset.FILENAME,
        Apex.FILENAME_CHARS, Apex.EXTENSION_CHARS, Apex.ENTRIES_PER_DIRECTORY,
        Apex.Filename.upcase,
        Apex.write_u16, Apex.write_bytes, List.length_map, hname, hext]
      split_ifs <;> omega
    · intro k hk
      simp only [Apex.FILENAME_CHARS, Apex.EXTENSION_CHARS] at hk
      rw [hD]
      simp only [Apex.DirectoryOffset.STATUS, Apex.DirectoryOffset.DIRCHG,
        Apex.DirectoryOffset.FDATE, Apex.DirectoryOffset.LAST_BLOCK,
        Apex.DirectoryOffset.FIRST_BLOCK, Apex.DirectoryOffset.FILENAME,
        Apex.FILENAME_CHARS, Apex.EXTENSION_CHARS, Apex.ENTRIES_PER_DIRECTORY,
        Apex.Filename.upcase,
        Apex.write_u16, Apex.write_bytes, List.length_map, hname, hext]
      split_ifs <;> first
        | omega
        | exact getD_map_map_toNat _ _ k (by omega) (by omega)
    · intro k hk
      simp only [Apex.FILENAME_CHARS, Apex.EXTENSION_CHARS] at hk
      rw [hD]
      simp only [Apex.DirectoryOffset.STATUS, Apex.DirectoryOffset.DIRCHG,
        Apex.DirectoryOffset.FDATE, Apex.DirectoryOffset.LAST_BLOCK,
        Apex.DirectoryOffset.FIRST_BLOCK, Apex.DirectoryOffset.FILENAME,
        Apex.FILENAME_CHARS, Apex.EXTENSION_CHARS, Apex.ENTRIES_PER_DIRECTORY,
        Apex.Filename.upcase,
        Apex.write_u16, Apex.write_bytes, List.length_map, hname, hext]
      split_ifs <;> first
        | omega
        | exact getD_map_map_toNat _ _ k (by omega) (by omega)
    · rw [hD]
      simp only [Apex.DirectoryOffset.STATUS, Apex.DirectoryOffset.DIRCHG,
        Apex.DirectoryOffset.FDATE, Apex.DirectoryOffset.LAST_BLOCK,
        Apex.DirectoryOffset.FIRST_BLOCK, Apex.DirectoryOffset.FILENAME,
        Apex.FILENAME_CHARS, Apex.EXTENSION_CHARS, Apex.ENTRIES_PER_DIRECTORY,
        Apex.Filename.upcase,
        Apex.write_u16, Apex.write_bytes, List.length_map, hname, hext]
      split_ifs <;> omega
    · rw [hD]
      simp only [Apex.DirectoryOffset.STATUS, Apex.DirectoryOffset.DIRCHG,
        Apex.DirectoryOffset.FDATE, Apex.DirectoryOffset.LAST_BLOCK,
        Apex.DirectoryOffset.FIRST_BLOCK, Apex.DirectoryOffset.FILENAME,
        Apex.FILENAME_CHARS, Apex.EXTENSION_CHARS, Apex.ENTRIES_PER_DIRECTORY,
        Apex.Filename.upcase,
        Apex.write_u16, Apex.write_bytes, List.length_map, hname, hext]
      split_ifs <;> omega
    · rw [hD]
      simp only [Apex.DirectoryOffset.STATUS, Apex.DirectoryOffset.DIRCHG,
        Apex.DirectoryOffset.FDATE, Apex.DirectoryOffset.LAST_BLOCK,
        Apex.DirectoryOffset.FIRST_BLOCK, Apex.DirectoryOffset.FILENAME,
        Apex.FILENAME_CHARS, Apex.EXTENSION_CHARS, Apex.ENTRIES_PER_DIRECTORY,
        Apex.Filename.upcase,
        Apex.write_u16, Apex.write_bytes, List.length_map, hname, hext]
      split_ifs <;> omega
    · rw [hD]
      simp only [Apex.DirectoryOffset.STATUS, Apex.DirectoryOffset.DIRCHG,
        Apex.DirectoryOffset.FDATE, Apex.DirectoryOffset.LAST_BLOCK,
        Apex.DirectoryOffset.FIRST_BLOCK, Apex.DirectoryOffset.FILENAME,
        Apex.FILENAME_CHARS, Apex.EXTENSION_CHARS, Apex.ENTRIES_PER_DIRECTORY,
        Apex.Filename.upcase,
        Apex.write_u16, Apex.write_bytes, List.length_map, hname, hext]
      split_ifs <;> omega
    · rw [hD]
      simp only [Apex.DirectoryOffset.STATUS, Apex.DirectoryOffset.DIRCHG,
        Apex.DirectoryOffset.FDATE, Apex.DirectoryOffset.LAST_BLOCK,
        Apex.DirectoryOffset.FIRST_BLOCK, Apex.DirectoryOffset.FILENAME,
        Apex.FILENAME_CHARS, Apex.EXTENSION_CHARS, Apex.ENTRIES_PER_DIRECTORY,
        Apex.Filename.upcase,
        Apex.write_u16, Apex.write_bytes, List.length_map, hname, hext]
      split_ifs <;> omega
    · rw [hD]
      simp only [Apex.DirectoryOffset.STATUS, Apex.DirectoryOffset.DIRCHG,
        Apex.DirectoryOffset.FDATE, Apex.DirectoryOffset.LAST_BLOCK,
        Apex.DirectoryOffset.FIRST_BLOCK, Apex.DirectoryOffset.FILENAME,
        Apex.FILENAME_CHARS, Apex.EXTENSION_CHARS, Apex.ENTRIES_PER_DIRECTORY,
        Apex.Filename.upcase,
        Apex.write_u16, Apex.write_bytes, List.length_map, hname, hext]
      split_ifs <;> omega
  · have hr : Apex.DirectoryEntry.replace s i status fn first_block last_block date_raw = (s, false) := by
      unfold Apex.DirectoryEntry.replace
      rw [if_pos h]
    exact ⟨by simp [hr, h], fun _ => by rw [hr], fun h0 => absurd h0 h⟩

/-- Witness for C3: slot 0 of the all-zero backup directory is INVALID, the
filename is 8+3, and replace succeeds there (its failure flag is tied to the
status byte). -/
theorem C3_replace_guard_witness :
    (0 < Apex.ENTRIES_PER_DIRECTORY ∧
     c3_fn.name.length = Apex.FILENAME_CHARS ∧
     c3_fn.ext.length = Apex.EXTENSION_CHARS) ∧
    (((Apex.DirectoryEntry.replace c3_state 0 1 c3_fn 20 25 13007).2 = false) ↔
      c3_state.dirData (Apex.DirectoryOffset.STATUS + 0) ≠ 0) :=
  ⟨⟨by decide, rfl, rfl⟩,
   (C3_replace_guard c3_state 0 1 20 25 13007 c3_fn (by decide) rfl rfl).1⟩

set_option maxRecDepth 40000 in
/-- Claim C1: for every directory whose VALID entries' block ranges lie
within [0, volume_size_blocks()), the free bitmap is the stated pure
function of the entries: a block b with 17 ≤ b < volume_size_blocks() is
free iff it lies in no VALID entry's [first_block, last_block] range, and
blocks 0..16 are never free; with zero VALID entries volume_free_blocks()
equals volume_size_blocks() − 17; on a concrete 560-block volume, adding a
VALID entry spanning [20,25] via replace drops the free count from 543 to
537, and delete_file restores 543. -/
theorem C1_free_bitmap_pure :
    (∀ d : Nat → Nat,
      (∀ i, i < Apex.ENTRIES_PER_DIRECTORY → Apex.get_status d i = 1 →
        Apex.get_last_block d i < Apex.volume_size_blocks d) →
      (∀ b, ((Apex.update_free_bitmap d).getD b false = true ↔
          (Apex.FILE_AREA_BEGIN ≤ b ∧ b < Apex.volume_size_blocks d ∧
           ¬ ∃ i, i < Apex.ENTRIES_PER_DIRECTORY ∧ Apex.get_status d i = 1 ∧
             Apex.get_first_block d i ≤ b ∧ b ≤ Apex.get_last_block d i))) ∧
      (∀ b, b < Apex.FILE_AREA_BEGIN → (Apex.update_free_bitmap d).getD b false = false) ∧
      ((∀ i, i < Apex.ENTRIES_PER_DIRECTORY → Apex.get_status d i ≠ 1) →
        Apex.volume_free_blocks d =
          Apex.volume_size_blocks d - Apex.FILE_AREA_BEGIN)) ∧
    Apex.volume_size_blocks c1_empty_dir = 560 ∧
    Apex.volume_free_blocks c1_empty_dir = 543 ∧
    Apex.volume_free_blocks
      (Apex.DirectoryEntry.replace c1_state 0 1 c1_fn 20 25 0).1.dirData = 537 ∧
    Apex.volume_free_blocks
      (Apex.delete_file (Apex.DirectoryEntry.replace c1_state 0 1 c1_fn 20 25 0).1 0).dirData
      = 543 := by
  refine ⟨?_, by decide, by decide, by decide, by decide⟩
  intro d hbound
  refine ⟨fun b => Apex.update_free_bitmap_getD d b, ?_, ?_⟩
  · intro b hb
    cases hgb : (Apex.update_free_bitmap d).getD b false
    · rfl
    · have := ((Apex.update_free_bitmap_getD d b).mp hgb).1
      omega
  · intro hnone
    unfold Apex.volume_free_blocks Apex.update_free_bitmap
    rw [Apex.foldl_entries_id d _ _ (fun i hi => hnone i (List.mem_range.mp hi))]
    exact Apex.count_init _

/-- Witness for C1: the empty 560-block volume satisfies the range bound,
and block 16 (inside the directory area) is not free. -/
theorem C1_free_bitmap_pure_witness :
    (∀ i, i < Apex.ENTRIES_PER_DIRECTORY → Apex.get_status c1_empty_dir i = 1 →
      Apex.get_last_block c1_empty_dir i < Apex.volume_size_blocks c1_empty_dir) ∧
    16 < Apex.FILE_AREA_BEGIN ∧
    (Apex.update_free_bitmap c1_empty_dir).getD 16 false = false :=
  ⟨by decide, by decide,
   (C1_free_bitmap_pure.1 c1_empty_dir (by decide)).2.1 16 (by decide)⟩

/-- Claim C10: whenever every VALID entry satisfies last_block <
volume_size_blocks(), every bitmap index touched while rebuilding the free
bitmap — both the initial file-area marking and the unguarded per-entry
clearing loops — lies below the bitmap's size, so the rebuild is total. -/
theorem C10_bitmap_rebuild_in_range :
    ∀ d : Nat → Nat,
      (∀ i, i < Apex.ENTRIES_PER_DIRECTORY → Apex.get_status d i = 1 →
        Apex.get_last_block d i < Apex.volume_size_blocks d) →
      (Apex.update_free_bitmap d).length = Apex.volume_size_blocks d ∧
      (∀ b ∈ Apex.free_bitmap_mark_indices d, b < Apex.volume_size_blocks d) ∧
      (∀ b ∈ Apex.free_bitmap_clear_indices d, b < Apex.volume_size_blocks d) := by
  intro d hbound
  refine ⟨Apex.update_free_bitmap_length d, ?_, ?_⟩
  · intro b hb
    have := List.mem_range'_1.mp hb
    omega
  · intro b hb
    obtain ⟨i, hi, hmem⟩ := List.mem_flatMap.mp hb
    have hi48 := List.mem_range.mp hi
    by_cases hs : Apex.get_status d i = 1
    · rw [if_pos hs] at hmem
      have hr := List.mem_range'_1.mp hmem
      have := hbound i hi48 hs
      omega
    · rw [if_neg hs] at hmem
      exact absurd hmem (List.not_mem_nil b)

/-- Witness for C10: the 37-block two-entry directory satisfies the range
bound and every per-entry clearing index is in range. -/
theorem C10_bitmap_rebuild_in_range_witness :
    (∀ i, i < Apex.ENTRIES_PER_DIRECTORY → Apex.get_status c2_dir i = 1 →
      Apex.get_last_block c2_dir i < Apex.volume_size_blocks c2_dir) ∧
    (∀ b ∈ Apex.free_bitmap_clear_indices c2_dir, b < Apex.volume_size_blocks c2_dir) :=
  ⟨by decide, (C10_bitmap_rebuild_in_range c2_dir (by decide)).2.2⟩


set_option maxRecDepth 40000 in
/-- Claim C2: find_free_blocks(n) is a first-fit search: when some n-long
free window exists it returns a block r that starts a maximal free run of
length ≥ n (r's window is free, the bit before r — if any — is used, and no
block before r starts an n-long free window), and it returns the sentinel 0
when no free run of length ≥ n exists; on the concrete bitmap with free
runs of lengths 3, 10 and 5 in block order, find_free_blocks(4) returns
block 21, the start of the length-10 run. -/
theorem C2_find_free_blocks_first_fit :
    (∀ (d : Nat → Nat) (n : Nat), 1 ≤ n →
      ((∃ s, Apex.goodStart (Apex.update_free_bitmap d) n s) →
        Apex.goodStart (Apex.update_free_bitmap d) n (Apex.find_free_blocks d n) ∧
        (Apex.find_free_blocks d n = 0 ∨
          (Apex.update_free_bitmap d).getD (Apex.find_free_blocks d n - 1) false = false) ∧
        (∀ s, s < Apex.find_free_blocks d n →
          ¬ Apex.goodStart (Apex.update_free_bitmap d) n s)) ∧
      ((∀ s, ¬ Apex.goodStart (Apex.update_free_bitmap d) n s) →
        Apex.find_free_blocks d n = 0)) ∧
    Apex.find_free_blocks c2_dir 4 = 21 ∧
    ((Apex.update_free_bitmap c2_dir).length = 37 ∧
     (Apex.update_free_bitmap c2_dir).getD 16 false = false ∧
     (Apex.update_free_bitmap c2_dir).getD 17 false = true ∧
     (Apex.update_free_bitmap c2_dir).getD 19 false = true ∧
     (Apex.update_free_bitmap c2_dir).getD 20 false = false ∧
     (Apex.update_free_bitmap c2_dir).getD 21 false = true ∧
     (Apex.update_free_bitmap c2_dir).getD 30 false = true ∧
     (Apex.update_free_bitmap c2_dir).getD 31 false = false ∧
     (Apex.update_free_bitmap c2_dir).getD 32 false = true ∧
     (Apex.update_free_bitmap c2_dir).getD 36 false = true) := by
  have hgen : ∀ (d : Nat → Nat) (n : Nat), 1 ≤ n →
      ((∃ s, Apex.goodStart (Apex.update_free_bitmap d) n s) →
        Apex.goodStart (Apex.update_free_bitmap d) n (Apex.find_free_blocks d n) ∧
        (Apex.find_free_blocks d n = 0 ∨
          (Apex.update_free_bitmap d).getD (Apex.find_free_blocks d n - 1) false = false) ∧
        (∀ s, s < Apex.find_free_blocks d n →
          ¬ Apex.goodStart (Apex.update_free_bitmap d) n s)) ∧
      ((∀ s, ¬ Apex.goodStart (Apex.update_free_bitmap d) n s) →
        Apex.find_free_blocks d n = 0) := by
    intro d n hn
    have hmin0 : ∀ s, s < Apex.find_from (Apex.update_free_bitmap d) true 0 →
        ¬ Apex.goodStart (Apex.update_free_bitmap d) n s := by
      intro s hs hgs
      have hslen : s < (Apex.update_free_bitmap d).length := by
        have := hgs.1
        omega
      have hnv := Apex.find_from_min (Apex.update_free_bitmap d) true 0 s (Nat.zero_le s)
        hs hslen
      have hw := hgs.2 0 (by omega)
      rw [Nat.add_zero] at hw
      exact hnv hw
    have hfree0 : Apex.find_from (Apex.update_free_bitmap d) true 0 <
        (Apex.update_free_bitmap d).length →
        (Apex.update_free_bitmap d).getD
          (Apex.find_from (Apex.update_free_bitmap d) true 0) false = true :=
      fun hl => Apex.find_from_getD _ _ _ hl
    have hspec := Apex.ffb_loop_spec (Apex.update_free_bitmap d) n hn
      ((Apex.update_free_bitmap d).length - Apex.find_from (Apex.update_free_bitmap d) true 0)
      (Apex.find_from (Apex.update_free_bitmap d) true 0) rfl hmin0 hfree0
    have hffb : Apex.find_free_blocks d n =
        Apex.ffb_loop (Apex.update_free_bitmap d) (Apex.update_free_bitmap d).length n
          (Apex.find_from (Apex.update_free_bitmap d) true 0) := by
      unfold Apex.find_free_blocks
      rw [Apex.update_free_bitmap_length]
    rw [hffb]
    constructor
    · intro hex
      obtain ⟨hg, hmin⟩ := hspec.1 hex
      refine ⟨hg, ?_, hmin⟩
      by_cases h0 : Apex.ffb_loop (Apex.update_free_bitmap d)
          (Apex.update_free_bitmap d).length n
          (Apex.find_from (Apex.update_free_bitmap d) true 0) = 0
      · exact Or.inl h0
      · exact Or.inr (Apex.goodStart_pred_false (Apex.update_free_bitmap d) n _ hg
          (hmin _ (by omega)) h0)
    · exact hspec.2
  refine ⟨hgen, ?_, by decide, by decide, by decide, by decide, by decide, by decide,
    by decide, by decide, by decide, by decide⟩
  have hex : ∃ s, Apex.goodStart (Apex.update_free_bitmap c2_dir) 4 s := ⟨21, by decide⟩
  obtain ⟨hg, -, hmin⟩ := (hgen c2_dir 4 (by omega)).1 hex
  have h21 : Apex.goodStart (Apex.update_free_bitmap c2_dir) 4 21 := by decide
  have hlow : ∀ s, s < 21 → ¬ Apex.goodStart (Apex.update_free_bitmap c2_dir) 4 s := by
    decide
  have hle : ¬ 21 < Apex.find_free_blocks c2_dir 4 := fun hgt => hmin 21 hgt h21
  have hge : ¬ Apex.find_free_blocks c2_dir 4 < 21 := fun hlt => hlow _ hlt hg
  omega

/-- Witness for C2: on the 37-block directory with free runs 3, 10, 5, a
4-block window exists, and the returned block 21 starts a free window of
length 4. -/
theorem C2_find_free_blocks_first_fit_witness :
    (∃ s, Apex.goodStart (Apex.update_free_bitmap c2_dir) 4 s) ∧
    Apex.goodStart (Apex.update_free_bitmap c2_dir) 4 (Apex.find_free_blocks c2_dir 4) :=
  ⟨⟨21, by decide⟩,
   ((C2_find_free_blocks_first_fit.1 c2_dir 4 (by omega)).1 ⟨21, by decide⟩).1⟩

end Summit
